import Mathlib

/-!
# Verification of the Student Expense Manager persistence and aggregation layer

This file gives a shallow embedding of `src/expense_manager.py` and settles the
frozen claims about it.

The program stores expenses in an SQLite database and aggregates them with
`SELECT SUM(amount) ... WHERE strftime('%Y-%m', date) = ?`.  The first part of
this file models SQLite's date-time machinery (`date.c`) far enough to give
`strftime('%Y-%m', x)` as a total computable function on strings:

* `parseYMD` models `parseYyyyMmDd` (a `YYYY-MM-DD` date with optional time and
  timezone, month 1-12, day 1-31, year 0000-9999, optionally negated);
* `parseHhMmSs` models a bare `HH:MM[:SS[.frac]][tz]` time value (the date then
  defaults to 2000-01-01);
* `parseNumber` models `sqlite3AtoF` (leading and trailing whitespace are
  skipped); a bare number is a julian day number, valid when
  `0 <= r < 5373484.5`;
* the case-insensitive string `now` is the current date-time; since the model
  is pure, `strftimeYM` and the query functions take the current julian day in
  milliseconds as an explicit `now` parameter — exactly the clock value SQLite
  would read when the program runs the query;
* `computeJDms` / `computeYMDfromJD` model `computeJD` / `computeYMD`: the
  conversion between a Gregorian calendar date and the julian day number in
  milliseconds, with C truncating division (`Int.tdiv`) standing in for C integer
  division and double-to-int casts.  As in `computeYMD`, the parsed calendar
  fields are reported verbatim while they remain valid — `computeJD` clears
  them only when a nonzero timezone offset is applied — so a stored
  `2025-02-30` is formatted as month `2025-02`, not renormalized through the
  julian day.  SQLite performs a few of these steps in `double` arithmetic;
  here they are done in exact integer arithmetic, which agrees with the double
  computation on the whole valid julian-day range (the rounding boundaries of
  the constants 36524.25, 122.1, 365.25 and 30.6001 are never within double
  error of an integer there).  The model follows the 3.40-era `date.c` of the
  SQLite bundled with Python, before the 3.46 day-overflow rework.

The second part embeds the two relations (`expenses`, `budget`) as lists, the
`AUTOINCREMENT` id counter as an explicit `nextId` field, and each Python
function's SQL statements as pure state-passing functions.  `REAL` amounts are
modelled as exact rationals.  The third part states and proves the claims.
-/

/-- Characters treated as whitespace by `sqlite3Isspace`. -/
def sqSpace (c : Char) : Bool :=
  c = ' ' || c = '\t' || c = '\n' || c = '\u000b' || c = '\u000c' || c = '\r'

/-- Drop leading SQLite whitespace. -/
def skipSpaces : List Char → List Char
  | c :: cs => if sqSpace c then skipSpaces cs else c :: cs
  | [] => []

/-- Drop leading whitespace and `'T'` separators (the loop between the date and
time parts of `parseYyyyMmDd`). -/
def skipSpacesT : List Char → List Char
  | c :: cs => if sqSpace c || c = 'T' then skipSpacesT cs else c :: cs
  | [] => []

/-- Read exactly `n` decimal digits, accumulating their value (`getDigits`). -/
def readDigits : Nat → Nat → List Char → Option (Nat × List Char)
  | 0, acc, cs => some (acc, cs)
  | n + 1, acc, c :: cs =>
      if c.isDigit then readDigits n (acc * 10 + (c.toNat - 48)) cs else none
  | _ + 1, _, [] => none

/-- A fixed-width digit field with a range check, as in `getDigits`. -/
def digitsField (n lo hi : Nat) (cs : List Char) : Option (Nat × List Char) :=
  match readDigits n 0 cs with
  | some (v, rest) => if lo ≤ v ∧ v ≤ hi then some (v, rest) else none
  | none => none

/-- Consume one expected literal character. -/
def expectChar (c : Char) : List Char → Option (List Char)
  | d :: cs => if d = c then some cs else none
  | [] => none

/-- Read a run of digits as a fraction numerator together with its power-of-ten
denominator (the fractional-seconds loop of `parseHhMmSs`). -/
def readFracDigits : Nat → Nat → List Char → (Nat × Nat × List Char)
  | num, den, c :: cs =>
      if c.isDigit then readFracDigits (num * 10 + (c.toNat - 48)) (den * 10) cs
      else (num, den, c :: cs)
  | num, den, [] => (num, den, [])

/-- Model of `parseTimezone`: after the time there may be whitespace, then
nothing, `Z`/`z`, or a signed `HH:MM` offset (hours 0-14, minutes 0-59),
then only whitespace to the end.  Returns the offset in minutes. -/
def parseTimezone (cs0 : List Char) : Option Int :=
  match skipSpaces cs0 with
  | [] => some 0
  | 'Z' :: rest => if skipSpaces rest = [] then some 0 else none
  | 'z' :: rest => if skipSpaces rest = [] then some 0 else none
  | '+' :: rest =>
      match digitsField 2 0 14 rest with
      | some (h, rest1) =>
          match expectChar ':' rest1 with
          | some rest2 =>
              match digitsField 2 0 59 rest2 with
              | some (m, rest3) =>
                  if skipSpaces rest3 = [] then some (h * 60 + m) else none
              | none => none
          | none => none
      | none => none
  | '-' :: rest =>
      match digitsField 2 0 14 rest with
      | some (h, rest1) =>
          match expectChar ':' rest1 with
          | some rest2 =>
              match digitsField 2 0 59 rest2 with
              | some (m, rest3) =>
                  if skipSpaces rest3 = [] then some (-(h * 60 + m : Int)) else none
              | none => none
          | none => none
      | none => none
  | _ => none

/-- Model of `parseHhMmSs`: `HH:MM` (hours 0-24, minutes 0-59) with optional
`:SS[.frac]` (seconds 0-59) and a timezone suffix.  Returns the time of day in
milliseconds (seconds rounded as in `computeJD`: `(s*1000 + 0.5)` truncated)
and the timezone offset in minutes. -/
def parseHhMmSs (cs : List Char) : Option (Int × Int) :=
  match digitsField 2 0 24 cs with
  | none => none
  | some (h, cs1) =>
    match expectChar ':' cs1 with
    | none => none
    | some cs2 =>
      match digitsField 2 0 59 cs2 with
      | none => none
      | some (m, cs3) =>
        match cs3 with
        | ':' :: cs4 =>
          match digitsField 2 0 59 cs4 with
          | none => none
          | some (s, cs5) =>
            match cs5 with
            | '.' :: c :: cs6 =>
              if c.isDigit then
                match readFracDigits 0 1 (c :: cs6) with
                | (num, den, rest) =>
                  match parseTimezone rest with
                  | some tz =>
                      some ((h * 3600000 + m * 60000 : Int) +
                        Rat.floor ((s * 1000 : ℚ) + (num : ℚ) * 1000 / (den : ℚ) + 1 / 2), tz)
                  | none => none
              else
                match parseTimezone cs5 with
                | some tz => some ((h * 3600000 + m * 60000 + s * 1000 : Int), tz)
                | none => none
            | _ =>
              match parseTimezone cs5 with
              | some tz => some ((h * 3600000 + m * 60000 + s * 1000 : Int), tz)
              | none => none
        | _ =>
          match parseTimezone cs3 with
          | some tz => some ((h * 3600000 + m * 60000 : Int), tz)
          | none => none

/-- Model of `computeJD`: Gregorian year/month/day plus a time of day in
milliseconds and a timezone offset in minutes, to the julian day number in
milliseconds.  Fails for years outside -4713..9999 as `computeJD` does. -/
def computeJDms (y mo d timeMs tz : Int) : Option Int :=
  if y < -4713 ∨ 9999 < y then none
  else
    let y1 : Int := if mo ≤ 2 then y - 1 else y
    let m1 : Int := if mo ≤ 2 then mo + 12 else mo
    let a := Int.tdiv y1 100
    let b := 2 - a + Int.tdiv a 4
    let x1 := Int.tdiv (36525 * (y1 + 4716)) 100
    let x2 := Int.tdiv (306001 * (m1 + 1)) 10000
    some ((x1 + x2 + d + b) * 86400000 - 131716800000 + timeMs - tz * 60000)

/-- An SQLite date-time value as `strftime` sees it after `computeJD`: either
the parsed calendar fields are still valid (`validYMD`, kept whenever no
nonzero timezone offset was applied) together with the julian day number, or
only the julian day number is valid.  `computeYMD` returns the parsed
year/month/day verbatim in the first case and renormalizes from the julian day
only in the second. -/
inductive DateVal where
  | ymd (y mo d j : Int) : DateVal
  | jd (j : Int) : DateVal

/-- The julian day number in milliseconds of a date-time value. -/
def DateVal.iJD : DateVal → Int
  | .ymd _ _ _ j => j
  | .jd j => j

/-- Model of `parseYyyyMmDd`: `[-]YYYY-MM-DD` (month 1-12, day 1-31), then
optionally whitespace/`T` and a time-of-day part.  The parsed calendar fields
stay valid (`DateVal.ymd`) unless a nonzero timezone offset is applied, which
clears them (`DateVal.jd`), as in `computeJD`. -/
def parseYMD (cs0 : List Char) : Option DateVal :=
  let neg : Bool := match cs0 with | '-' :: _ => true | _ => false
  let cs : List Char := match cs0 with | '-' :: r => r | r => r
  match digitsField 4 0 9999 cs with
    | none => none
    | some (y, cs1) =>
      match expectChar '-' cs1 with
      | none => none
      | some cs2 =>
        match digitsField 2 1 12 cs2 with
        | none => none
        | some (mo, cs3) =>
          match expectChar '-' cs3 with
          | none => none
          | some cs4 =>
            match digitsField 2 1 31 cs4 with
            | none => none
            | some (d, cs5) =>
              let yi : Int := if neg then -(y : Int) else (y : Int)
              let rest := skipSpacesT cs5
              match rest with
              | [] => (computeJDms yi mo d 0 0).map (fun j => DateVal.ymd yi mo d j)
              | _ =>
                match parseHhMmSs rest with
                | some (timeMs, tz) =>
                    (computeJDms yi mo d timeMs tz).map (fun j =>
                      if tz = 0 then DateVal.ymd yi mo d j else DateVal.jd j)
                | none => none

/-- Read a run of decimal digits, also counting how many were read
(for the `sqlite3AtoF` model). -/
def readNum : Nat → Nat → List Char → (Nat × Nat × List Char)
  | acc, cnt, c :: cs =>
      if c.isDigit then readNum (acc * 10 + (c.toNat - 48)) (cnt + 1) cs
      else (acc, cnt, c :: cs)
  | acc, cnt, [] => (acc, cnt, [])

/-- Exponent suffix of a real literal: `e`/`E`, optional sign, at least one
digit (the `eValid` condition of `sqlite3AtoF`). -/
def parseExponent (cs : List Char) : Option (Int × List Char) :=
  match cs with
  | 'e' :: rest | 'E' :: rest =>
      let sgn : Int := match rest with | '-' :: _ => -1 | _ => 1
      let rest1 := match rest with | '-' :: r => r | '+' :: r => r | r => r
      match readNum 0 0 rest1 with
      | (e, cnt, rest2) => if cnt = 0 then none else some (sgn * e, rest2)
  | _ => none

/-- Model of `sqlite3AtoF` restricted to full-string acceptance: optional
leading whitespace, optional sign, digits with at most one decimal point and at
least one mantissa digit, an optional well-formed exponent, and optional
trailing whitespace, consuming the entire string.  Returns the exact rational
value. -/
def parseNumber (cs0 : List Char) : Option ℚ :=
  let cs := skipSpaces cs0
  let sgn : ℚ := match cs with | '-' :: _ => -1 | _ => 1
  let cs1 : List Char := match cs with | '-' :: r => r | '+' :: r => r | r => r
  match readNum 0 0 cs1 with
  | (ip, icnt, rest) =>
    let (fnum, fden, fcnt, rest1) :=
      match rest with
      | '.' :: r =>
          match readFracDigits 0 1 r with
          | (n, d, r1) => (n, d, (1 : Nat), r1)
      | r => (0, 1, 0, r)
    if icnt = 0 ∧ (fcnt = 0 ∨ fden = 1) then none
    else
      let mant : ℚ := sgn * ((ip : ℚ) + (fnum : ℚ) / (fden : ℚ))
      match parseExponent rest1 with
      | some (e, rest2) =>
          if skipSpaces rest2 = [] then some (mant * (10 : ℚ) ^ e) else none
      | none => if skipSpaces rest1 = [] then some mant else none

/-- ASCII lower-casing of one character, as in `sqlite3StrICmp`. -/
def asciiLower (c : Char) : Char :=
  if 'A' ≤ c ∧ c ≤ 'Z' then Char.ofNat (c.toNat + 32) else c

/-- Model of `parseDateOrTime` followed by the `validJulianDay` range check of
`isDate`: a date string to the date-time value `strftime` formats, evaluated
when the current julian day in milliseconds is `now`.  Tries a full date, then
a bare time (date 2000-01-01, calendar fields never valid), then the
case-insensitive string `now` (which denotes the current date-time, with only
the julian day valid), then a bare julian day number (valid when
`0 <= r < 5373484.5`). -/
def sqliteDateValue (now : Int) (s : String) : Option DateVal :=
  let v :=
    match parseYMD s.data with
    | some dv => some dv
    | none =>
      match parseHhMmSs s.data with
      | some (timeMs, tz) => (computeJDms 2000 1 1 timeMs tz).map DateVal.jd
      | none =>
        if s.data.map asciiLower = "now".data then some (DateVal.jd now)
        else
          match parseNumber s.data with
          | some r =>
              if 0 ≤ r ∧ r < (10746969 : ℚ) / 2 then
                some (DateVal.jd (Rat.floor (r * 86400000 + 1 / 2)))
              else none
          | none => none
  match v with
  | some dv => if 0 ≤ dv.iJD ∧ dv.iJD ≤ 464269060799999 then some dv else none
  | none => none

/-- Model of `computeYMD`: julian day number in milliseconds back to the
Gregorian `(year, month, day)`.  `C & 32767` is omitted since `C` is positive
and below 32768 on the whole valid julian-day range. -/
def computeYMDfromJD (iJD : Int) : Int × Int × Int :=
  let z := Int.tdiv (iJD + 43200000) 86400000
  let a := Int.tdiv (z * 4 - 7468865) 146097
  let a2 := z + 1 + a - Int.tdiv a 4
  let b := a2 + 1524
  let c := Int.tdiv (b * 20 - 2442) 7305
  let d0 := Int.tdiv (36525 * c) 100
  let e := Int.tdiv ((b - d0) * 10000) 306001
  let x1 := Int.tdiv (306001 * e) 10000
  let day := b - d0 - x1
  let mo := if e < 14 then e - 1 else e - 13
  let yr := if 2 < mo then c - 4716 else c - 4715
  (yr, mo, day)

/-- Zero-pad a natural number to a given width. -/
def padNat (w n : Nat) : String :=
  let s := toString n
  String.mk (List.replicate (w - s.length) '0') ++ s

/-- C `"%04d"` as used by `strftime` for `%Y`. -/
def fmtY (n : Int) : String :=
  if n < 0 then "-" ++ padNat 3 (-n).toNat else padNat 4 n.toNat

/-- C `"%02d"` as used by `strftime` for `%m`. -/
def fmtM (n : Int) : String := padNat 2 n.toNat

/-- Model of SQLite `strftime('%Y-%m', s)` evaluated when the current julian
day in milliseconds is `now`: `none` stands for SQL `NULL`.  Per `computeYMD`,
the parsed year-month is reported verbatim while the calendar fields are
valid, and is derived from the julian day number otherwise. -/
def strftimeYM (now : Int) (s : String) : Option String :=
  match sqliteDateValue now s with
  | some (.ymd y mo _ _) => some (fmtY y ++ "-" ++ fmtM mo)
  | some (.jd j) =>
      match computeYMDfromJD j with
      | (y, m, _) => some (fmtY y ++ "-" ++ fmtM m)
  | none => none

/-!
## Data model and store operations

`expenses` and `budget` are the two relations of `init_db`, modelled as lists
in insertion order.  `nextId` is the `AUTOINCREMENT` counter for
`expenses.id`: SQLite with `AUTOINCREMENT` assigns ids from a monotone
sequence that is never decreased by deletes.  `REAL` amounts are exact
rationals, `note` may be SQL `NULL`.
-/

/-- A row of the `expenses` relation. -/
structure Expense where
  id : Nat
  date : String
  category : String
  amount : ℚ
  note : Option String
deriving DecidableEq

/-- The persisted state: both relations plus the `AUTOINCREMENT` counter. -/
structure DB where
  expenses : List Expense
  nextId : Nat
  budget : List (String × ℚ)
deriving DecidableEq

/-- `init_db`: both relations exist and are empty; `AUTOINCREMENT` ids start
at 1. -/
def init_db : DB := ⟨[], 1, []⟩

/-- The `INSERT INTO expenses` of `add_expense` (lines 71-74): the row is
stored verbatim with the next auto-assigned id, which is also returned. -/
def add_expense (db : DB) (date category : String) (amount : ℚ)
    (note : Option String) : DB × Nat :=
  ({ db with
      expenses := db.expenses ++ [⟨db.nextId, date, category, amount, note⟩],
      nextId := db.nextId + 1 },
   db.nextId)

/-- The `DELETE FROM expenses WHERE id = ?` of `delete_expense`
(lines 202-204): removes every row with the given id and reports
`cur.rowcount`, the number of rows removed. -/
def delete_expense (db : DB) (i : Nat) : DB × Nat :=
  let remaining := db.expenses.filter (fun e => e.id != i)
  ({ db with expenses := remaining }, db.expenses.length - remaining.length)

/-- The `INSERT ... ON CONFLICT(month) DO UPDATE SET amount` of
`set_monthly_budget` (lines 92-96): update the amount in place when the month
key is present, insert a new row otherwise. -/
def set_monthly_budget (db : DB) (k : String) (a : ℚ) : DB :=
  { db with
      budget :=
        if db.budget.any (fun p => p.1 == k) then
          db.budget.map (fun p => if p.1 == k then (p.1, a) else p)
        else db.budget ++ [(k, a)] }

/-- The `SELECT ... FROM expenses ORDER BY date` of `view_all_expenses`
(line 110): all rows, stably sorted by the `date` string (SQLite `BINARY`
ordering on UTF-8 text agrees with `String` order). -/
def view_all_expenses (db : DB) : List Expense :=
  List.insertionSort (fun a b => a.date ≤ b.date) db.expenses

/-- The row filter `strftime('%Y-%m', date) = month_key` shared by the two
summary queries (lines 133-136 and 169-174), evaluated when the current
julian day in milliseconds is `now` (relevant only to rows whose stored date
is the string `now`). -/
def monthMatch (now : Int) (k : String) (e : Expense) : Bool :=
  strftimeYM now e.date == some k

/-- SQL `SUM` over a `NOT NULL` column: `NULL` on no rows, otherwise the
accumulated sum. -/
def sqlSum (l : List ℚ) : Option ℚ :=
  match l with
  | [] => none
  | _ => some (l.foldl (· + ·) 0)

/-- The monthly total of `view_month_summary` (lines 133-139):
`SELECT SUM(amount) ... WHERE strftime('%Y-%m', date) = ?`, with the Python
`if total_expense is None: total_expense = 0.0` coalescing. -/
def sum_expenses_for_month (now : Int) (db : DB) (k : String) : ℚ :=
  (sqlSum ((db.expenses.filter (monthMatch now k)).map (·.amount))).getD 0

/-- The `SELECT amount FROM budget WHERE month = ?` of `view_month_summary`
(lines 142-144): the budget for the key, or `none` when unset. -/
def get_budget (db : DB) (k : String) : Option ℚ :=
  (db.budget.find? (fun p => p.1 == k)).map (·.2)

/-- The three-variant budget judgement of the reporting layer. -/
inductive BudgetStatus where
  | unset : BudgetStatus
  | withinBudget : ℚ → BudgetStatus
  | exceeded : ℚ → BudgetStatus
deriving DecidableEq

/-- The branching of `view_month_summary` on lines 148-156: no budget row
means unset; otherwise `remaining = budget - total` is within budget when
`remaining >= 0` and exceeded by `-remaining` otherwise. -/
def evaluate (total : ℚ) (budget : Option ℚ) : BudgetStatus :=
  match budget with
  | none => .unset
  | some b =>
      let remaining := b - total
      if 0 ≤ remaining then .withinBudget remaining else .exceeded (-remaining)

/-- The full computation of `view_month_summary` for a month key: the total,
the optional budget, and the judgement printed on lines 148-156. -/
def view_month_summary (now : Int) (db : DB) (k : String) :
    ℚ × Option ℚ × BudgetStatus :=
  let total := sum_expenses_for_month now db k
  let b := get_budget db k
  (total, b, evaluate total b)

/-- The `SELECT category, SUM(amount) ... GROUP BY category` of
`view_category_wise_summary` (lines 169-174): one output row per distinct
category among the month's rows, with the summed amount. -/
def view_category_wise_summary (now : Int) (db : DB) (k : String) : List (String × ℚ) :=
  let rows := db.expenses.filter (monthMatch now k)
  (rows.map (·.category)).dedup.map
    (fun c => (c, ((rows.filter (fun e => e.category == c)).map (·.amount)).foldl (· + ·) 0))

/-!
## Spec-side definitions

These follow the specification's words, to be compared with the embedded code:
the first-7-characters month rule of §4.1, and well-formed ISO dates.
-/

/-- The specification's month rule: sum `amount` over exactly the expenses
whose `date`'s first 7 characters equal the month key. -/
def specTake7MonthSum (db : DB) (k : String) : ℚ :=
  ((db.expenses.filter (fun e => e.date.take 7 == k)).map (·.amount)).sum

/-- Gregorian leap year. -/
def isLeapYear (y : Nat) : Bool :=
  (y % 4 == 0 && y % 100 != 0) || y % 400 == 0

/-- Days in a month of the Gregorian calendar. -/
def daysInMonth (y m : Nat) : Nat :=
  if m = 2 then (if isLeapYear y then 29 else 28)
  else if m = 4 ∨ m = 6 ∨ m = 9 ∨ m = 11 then 30
  else 31

/-- A well-formed ISO-8601 calendar date `YYYY-MM-DD`: ten characters, digits
in the digit positions, dashes in between, month 1-12 and day within the
month's length. -/
def isWellFormedISODate (s : String) : Bool :=
  match s.data with
  | [y1, y2, y3, y4, s1, m1, m2, s2, d1, d2] =>
      y1.isDigit && y2.isDigit && y3.isDigit && y4.isDigit &&
      m1.isDigit && m2.isDigit && d1.isDigit && d2.isDigit &&
      s1 == '-' && s2 == '-' &&
      (let y := ((y1.toNat - 48) * 10 + (y2.toNat - 48)) * 100 +
                 (y3.toNat - 48) * 10 + (y4.toNat - 48)
       let m := (m1.toNat - 48) * 10 + (m2.toNat - 48)
       let d := (d1.toNat - 48) * 10 + (d2.toNat - 48)
       decide (1 ≤ m ∧ m ≤ 12 ∧ 1 ≤ d ∧ d ≤ daysInMonth y m))
  | _ => false

/-!
## Reachable states

One constructor per mutating core operation; `Reachable` is the reflexive
transitive closure from the freshly initialised store.
-/

/-- One mutating store operation. -/
inductive Step : DB → DB → Prop where
  | add (db : DB) (d c : String) (a : ℚ) (n : Option String) :
      Step db (add_expense db d c a n).1
  | del (db : DB) (i : Nat) : Step db (delete_expense db i).1
  | setBudget (db : DB) (k : String) (a : ℚ) : Step db (set_monthly_budget db k a)

/-- States reachable from `init_db` by core operations. -/
def Reachable (db : DB) : Prop :=
  Relation.ReflTransGen Step init_db db

/-! ## Helper lemmas -/

theorem foldl_add_eq_sum (l : List ℚ) : ∀ a : ℚ, l.foldl (· + ·) a = a + l.sum := by
  induction l with
  | nil => intro a; simp
  | cons x xs ih => intro a; simp [ih]; ring

theorem sqlSum_getD (l : List ℚ) : (sqlSum l).getD 0 = l.sum := by
  cases l with
  | nil => simp [sqlSum]
  | cons x xs => simp [sqlSum, foldl_add_eq_sum]

instance : IsTotal Expense (fun a b => a.date ≤ b.date) :=
  ⟨fun a b => le_total a.date b.date⟩

instance : IsTrans Expense (fun a b => a.date ≤ b.date) :=
  ⟨fun _ _ _ h₁ h₂ => le_trans h₁ h₂⟩

/-! ## Claims -/

/-- C1, amended: for every state, month key and query-evaluation time, the
monthly total of `view_month_summary` equals the arithmetic sum of `amount`
over exactly the expense records matched by the code's
`strftime('%Y-%m', date) = key` filter, and equals 0 (never `NULL`) when no
record matches.  The original first-7-characters rule is refuted by
`C1_take7_rule_fails`. -/
theorem C1_sum_matches_strftime_filter (now : Int) (db : DB) (k : String) :
    sum_expenses_for_month now db k =
      ((db.expenses.filter (monthMatch now k)).map (·.amount)).sum ∧
    ((∀ e ∈ db.expenses, monthMatch now k e = false) →
      sum_expenses_for_month now db k = 0) := by
  constructor
  · exact sqlSum_getD _
  · intro h
    have hfil : db.expenses.filter (monthMatch now k) = [] := by
      simp [List.filter_eq_nil_iff]
      intro e he
      simp [h e he]
    simp [sum_expenses_for_month, hfil, sqlSum]

/-- Witness for C1: in the empty store every month's total is 0. -/
theorem C1_sum_matches_strftime_filter_witness :
    sum_expenses_for_month 0 init_db "2025-12" = 0 :=
  (C1_sum_matches_strftime_filter 0 init_db "2025-12").2
    (by intro e he; simp [init_db] at he)

/-- A state holding one expense whose date string `"2025-12-99"` has first
seven characters `"2025-12"` but is not a parseable SQLite date (day 99 is out
of range), so the summary query does not count it. -/
def cxDB1 : DB := ⟨[⟨1, "2025-12-99", "Food", 5, none⟩], 2, []⟩

/-- C1 as frozen is false: the monthly total is not always the sum over the
records whose first 7 date characters equal the key.  On `cxDB1` and key
`"2025-12"` the code computes 0 while the first-7-characters rule sums 5. -/
theorem C1_take7_rule_fails :
    sum_expenses_for_month 0 cxDB1 "2025-12" ≠ specTake7MonthSum cxDB1 "2025-12" := by
  have h1 : sum_expenses_for_month 0 cxDB1 "2025-12" = 0 := by
    simp +decide [sum_expenses_for_month, cxDB1, monthMatch, sqlSum]
  have h2 : specTake7MonthSum cxDB1 "2025-12" = 5 := by
    simp +decide [specTake7MonthSum, cxDB1]
  rw [h1, h2]
  norm_num

/-- C2: the budget judgement is `unset` when the budget is absent; otherwise
with `remaining = budget - total` it is `withinBudget remaining` when
`remaining ≥ 0` and `exceeded (-remaining)` when `remaining < 0`; the boundary
`remaining = 0` classifies as within budget. -/
theorem C2_evaluate_cases (t b : ℚ) :
    evaluate t none = .unset ∧
    (0 ≤ b - t → evaluate t (some b) = .withinBudget (b - t)) ∧
    (b - t < 0 → evaluate t (some b) = .exceeded (-(b - t))) ∧
    evaluate t (some t) = .withinBudget 0 := by
  refine ⟨rfl, fun h => ?_, fun h => ?_, ?_⟩
  · simp [evaluate, h]
  · simp [evaluate, not_le.mpr h]
  · simp [evaluate]

/-- Witness for C2 at the specification's own examples:
`evaluate 80 (some 100)` is within budget by 20 and
`evaluate 120 (some 100)` is exceeded by 20. -/
theorem C2_evaluate_cases_witness :
    evaluate 80 (some 100) = .withinBudget (100 - 80) ∧
    evaluate 120 (some 100) = .exceeded (-(100 - 120)) :=
  ⟨(C2_evaluate_cases 80 100).2.1 (by norm_num),
   (C2_evaluate_cases 120 100).2.2.1 (by norm_num)⟩

/-- C5: the list operation returns all stored expense records, ordered by
ascending `date` in string (lexicographic) order, and returns the empty
sequence when no records exist. -/
theorem C5_list_all_sorted (db : DB) :
    List.Sorted (fun a b : Expense => a.date ≤ b.date) (view_all_expenses db) ∧
    (view_all_expenses db).Perm db.expenses ∧
    (db.expenses = [] → view_all_expenses db = []) := by
  refine ⟨List.sorted_insertionSort _ _, List.perm_insertionSort _ _, fun h => ?_⟩
  simp [view_all_expenses, h]

/-- Witness for C5: listing the freshly initialised store yields the empty
sequence. -/
theorem C5_list_all_sorted_witness : view_all_expenses init_db = [] :=
  (C5_list_all_sorted init_db).2.2 rfl

/-- C6: a valid insert (non-negative amount) grows the listed records by
exactly one, and the new record carries the input date, category, amount and
note verbatim (with the freshly assigned id). -/
theorem C6_add_grows_by_one (db : DB) (d c : String) (a : ℚ) (n : Option String)
    (_h : 0 ≤ a) :
    (view_all_expenses (add_expense db d c a n).1).length =
      (view_all_expenses db).length + 1 ∧
    (⟨db.nextId, d, c, a, n⟩ : Expense) ∈ view_all_expenses (add_expense db d c a n).1 := by
  constructor
  · simp [view_all_expenses, add_expense]
  · simp [view_all_expenses, add_expense]

/-- Witness for C6 at the specification's scenario: adding
`(2025-12-05, Food, 150, lunch)` to the fresh store. -/
theorem C6_add_grows_by_one_witness :
    (view_all_expenses (add_expense init_db "2025-12-05" "Food" 150 (some "lunch")).1).length =
      (view_all_expenses init_db).length + 1 ∧
    (⟨1, "2025-12-05", "Food", 150, some "lunch"⟩ : Expense) ∈
      view_all_expenses (add_expense init_db "2025-12-05" "Food" 150 (some "lunch")).1 :=
  C6_add_grows_by_one init_db "2025-12-05" "Food" 150 (some "lunch") (by norm_num)

/-- C9: each core operation touches a single relation: setting a budget leaves
the `expenses` relation (and the id counter) unchanged, and adding or deleting
an expense leaves the `budget` relation unchanged. -/
theorem C9_single_relation_frame (db : DB) (k : String) (a : ℚ) (d c : String)
    (am : ℚ) (n : Option String) (i : Nat) :
    (set_monthly_budget db k a).expenses = db.expenses ∧
    (set_monthly_budget db k a).nextId = db.nextId ∧
    (add_expense db d c am n).1.budget = db.budget ∧
    (delete_expense db i).1.budget = db.budget :=
  ⟨rfl, rfl, rfl, rfl⟩

theorem keys_replace (l : List (String × ℚ)) (k : String) (a : ℚ) :
    (l.map (fun p => if p.1 == k then (p.1, a) else p)).map Prod.fst = l.map Prod.fst := by
  induction l with
  | nil => rfl
  | cons p l ih =>
      simp only [List.map_cons]
      by_cases h : (p.1 == k) = true
      · rw [if_pos h, ih]
      · rw [if_neg h, ih]

theorem filter_replace_of_not_key (l : List (String × ℚ)) (k : String) (a : ℚ)
    (h : k ∉ l.map Prod.fst) :
    (l.map (fun p => if p.1 == k then (p.1, a) else p)).filter (fun p => p.1 == k) = [] := by
  rw [List.filter_eq_nil_iff]
  intro x hx
  simp only [List.mem_map] at hx
  obtain ⟨q, hq, rfl⟩ := hx
  have hqk : ¬(q.1 == k) := by
    intro hk
    exact h (List.mem_map.mpr ⟨q, hq, by simpa using hk⟩)
  simp [hqk]

theorem filter_replace_of_key (l : List (String × ℚ)) (k : String) (a : ℚ)
    (hnd : (l.map Prod.fst).Nodup) (hin : l.any (fun p => p.1 == k)) :
    (l.map (fun p => if p.1 == k then (p.1, a) else p)).filter (fun p => p.1 == k) = [(k, a)] := by
  induction l with
  | nil => simp at hin
  | cons p l ih =>
      simp only [List.map_cons, List.nodup_cons] at hnd
      obtain ⟨hp1, hnd'⟩ := hnd
      simp only [List.map_cons]
      by_cases hpk : (p.1 == k) = true
      · rw [if_pos hpk, List.filter_cons_of_pos (by exact hpk)]
        have hk : p.1 = k := by simpa using hpk
        have hrest : (l.map (fun q => if q.1 == k then (q.1, a) else q)).filter
            (fun q => q.1 == k) = [] :=
          filter_replace_of_not_key l k a (by rw [← hk]; exact hp1)
        rw [hrest, hk]
      · rw [if_neg hpk, List.filter_cons_of_neg (by exact hpk)]
        refine ih hnd' ?_
        rcases List.any_eq_true.mp hin with ⟨q, hq, hqk⟩
        rcases List.mem_cons.mp hq with rfl | hql
        · exact absurd hqk hpk
        · exact List.any_eq_true.mpr ⟨q, hql, hqk⟩

theorem filter_append_new_key (l : List (String × ℚ)) (k : String) (a : ℚ)
    (h : ¬l.any (fun p => p.1 == k)) :
    (l ++ [(k, a)]).filter (fun p => p.1 == k) = [(k, a)] := by
  rw [List.filter_append]
  have h1 : l.filter (fun p => p.1 == k) = [] := by
    rw [List.filter_eq_nil_iff]
    intro x hx hk
    exact h (List.any_eq_true.mpr ⟨x, hx, hk⟩)
  simp [h1]

theorem set_budget_keys_nodup (db : DB) (k : String) (a : ℚ)
    (h : (db.budget.map Prod.fst).Nodup) :
    ((set_monthly_budget db k a).budget.map Prod.fst).Nodup := by
  have hbud : (set_monthly_budget db k a).budget =
      (if db.budget.any (fun p => p.1 == k) then
        db.budget.map (fun p => if p.1 == k then (p.1, a) else p)
      else db.budget ++ [(k, a)]) := rfl
  rw [hbud]
  by_cases hany : db.budget.any (fun p => p.1 == k)
  · rw [if_pos hany, keys_replace]
    exact h
  · rw [if_neg hany, List.map_append, List.nodup_append]
    refine ⟨h, by simp, ?_⟩
    intro x hx
    simp only [List.mem_map] at hx
    obtain ⟨q, hq, rfl⟩ := hx
    simp only [List.map_cons, List.map_nil, List.mem_singleton]
    intro hk
    exact hany (List.any_eq_true.mpr ⟨q, hq, by simpa using hk⟩)

theorem set_budget_filter (db : DB) (k : String) (a : ℚ)
    (h : (db.budget.map Prod.fst).Nodup) :
    (set_monthly_budget db k a).budget.filter (fun p => p.1 == k) = [(k, a)] := by
  unfold set_monthly_budget
  by_cases hany : db.budget.any (fun p => p.1 == k)
  · simpa [hany] using filter_replace_of_key db.budget k a h hany
  · simpa [hany] using filter_append_new_key db.budget k a (by simpa using hany)

theorem reachable_budget_nodup {db : DB} (h : Reachable db) :
    (db.budget.map Prod.fst).Nodup := by
  induction h with
  | refl => simp [init_db]
  | tail _ hstep ih =>
      cases hstep with
      | add d c a n => exact ih
      | del i => exact ih
      | setBudget k a => exact set_budget_keys_nodup _ _ _ ih

/-- C3: every reachable state has at most one budget record per month key;
with distinct keys, setting a budget keeps them distinct and leaves exactly
one record for the set month holding the given amount, and setting twice for
the same month leaves exactly one record holding the latest amount. -/
theorem C3_budget_upsert (db : DB) (k : String) (a a' : ℚ)
    (h : (db.budget.map Prod.fst).Nodup) :
    (∀ db0, Reachable db0 → (db0.budget.map Prod.fst).Nodup) ∧
    ((set_monthly_budget db k a).budget.map Prod.fst).Nodup ∧
    (set_monthly_budget db k a).budget.filter (fun p => p.1 == k) = [(k, a)] ∧
    (set_monthly_budget (set_monthly_budget db k a) k a').budget.filter
      (fun p => p.1 == k) = [(k, a')] :=
  ⟨fun _ h0 => reachable_budget_nodup h0,
   set_budget_keys_nodup db k a h,
   set_budget_filter db k a h,
   set_budget_filter (set_monthly_budget db k a) k a' (set_budget_keys_nodup db k a h)⟩

/-- Witness for C3: setting the December budget to 1000 and then to 800 leaves
exactly the record `("2025-12", 800)` for that month. -/
theorem C3_budget_upsert_witness :
    (set_monthly_budget (set_monthly_budget init_db "2025-12" 1000) "2025-12" 800).budget.filter
      (fun p => p.1 == "2025-12") = [("2025-12", 800)] :=
  (C3_budget_upsert init_db "2025-12" 1000 800 (by simp [init_db])).2.2.2

theorem delete_count_eq_filter (l : List Expense) (i : Nat) :
    l.length - (l.filter (fun e => e.id != i)).length =
      (l.filter (fun e => e.id == i)).length := by
  induction l with
  | nil => simp
  | cons e l ih =>
      have hle : (l.filter (fun e => e.id != i)).length ≤ l.length :=
        List.length_filter_le _ _
      by_cases h : e.id = i
      · rw [List.filter_cons_of_neg (by simp [h]), List.filter_cons_of_pos (by simp [h]),
          List.length_cons, List.length_cons]
        omega
      · rw [List.filter_cons_of_pos (by simp [h]), List.filter_cons_of_neg (by simp [h]),
          List.length_cons, List.length_cons]
        omega

theorem filter_id_eq_singleton (l : List Expense) (i : Nat)
    (hnd : (l.map (·.id)).Nodup) (e : Expense) (he : e ∈ l) (hei : e.id = i) :
    l.filter (fun x => x.id == i) = [e] := by
  induction l with
  | nil => simp at he
  | cons x l ih =>
      simp only [List.map_cons, List.nodup_cons] at hnd
      obtain ⟨hx, hnd'⟩ := hnd
      rcases List.mem_cons.mp he with rfl | hel
      · rw [List.filter_cons_of_pos (by simp [hei])]
        have hnil : l.filter (fun y => y.id == i) = [] := by
          rw [List.filter_eq_nil_iff]
          intro y hy hyi
          apply hx
          have hyid : y.id = i := by simpa using hyi
          exact List.mem_map.mpr ⟨y, hy, by rw [hyid, hei]⟩
        rw [hnil]
      · have hxi : ¬x.id = i := by
          intro hxi
          apply hx
          exact List.mem_map.mpr ⟨e, hel, by rw [hei, ← hxi]⟩
        rw [List.filter_cons_of_neg (by simp [hxi])]
        exact ih hnd' hel

/-- C4: with distinct ids (true of every reachable state), deleting an
existing id reports count 1 and removes exactly that record; deleting an
unknown id reports count 0 and leaves the store entirely unchanged; and a
listing taken after the delete never contains the deleted id. -/
theorem C4_delete_semantics (db : DB) (i : Nat)
    (hnd : (db.expenses.map (·.id)).Nodup) :
    ((∃ e ∈ db.expenses, e.id = i) →
        (delete_expense db i).2 = 1 ∧
        ∀ e, e ∈ (delete_expense db i).1.expenses ↔ e ∈ db.expenses ∧ e.id ≠ i) ∧
    ((∀ e ∈ db.expenses, e.id ≠ i) →
        (delete_expense db i).2 = 0 ∧ (delete_expense db i).1 = db) ∧
    ∀ e ∈ view_all_expenses (delete_expense db i).1, e.id ≠ i := by
  refine ⟨?_, ?_, ?_⟩
  · rintro ⟨e, he, hei⟩
    refine ⟨?_, ?_⟩
    · show db.expenses.length - _ = 1
      rw [delete_count_eq_filter, filter_id_eq_singleton db.expenses i hnd e he hei]
      rfl
    · intro x
      simp [delete_expense, List.mem_filter]
  · intro h
    have hf : db.expenses.filter (fun e => e.id != i) = db.expenses := by
      rw [List.filter_eq_self]
      intro a ha
      simp [h a ha]
    refine ⟨?_, ?_⟩
    · show db.expenses.length - _ = 0
      rw [hf, Nat.sub_self]
    · show ({ db with expenses := db.expenses.filter (fun e => e.id != i) } : DB) = db
      rw [hf]
  · intro e he
    simp only [view_all_expenses, List.mem_insertionSort] at he
    have := (List.mem_filter.mp he).2
    simpa using this

/-- Witness for C4: in a two-record store with ids 1 and 2, deleting id 1
reports a count of 1. -/
theorem C4_delete_semantics_witness :
    (delete_expense ⟨[⟨1, "2025-12-01", "Food", 5, none⟩,
        ⟨2, "2025-12-02", "Travel", 9, none⟩], 3, []⟩ 1).2 = 1 :=
  ((C4_delete_semantics _ 1 (by simp)).1
    ⟨⟨1, "2025-12-01", "Food", 5, none⟩, by simp, rfl⟩).1

theorem lookup_map_self (f : String → ℚ) (c : String) (l : List String) :
    (l.map (fun x => (x, f x))).lookup c = if c ∈ l then some (f c) else none := by
  induction l with
  | nil => simp
  | cons x xs ih =>
      by_cases h : c = x
      · subst h
        simp
      · have hb : (c == x) = false := by simpa using h
        simp [List.lookup_cons, hb, ih, List.mem_cons, h]

/-- C7: the category-wise summary maps each category to the sum of `amount`
over exactly that category's expenses matching the month, and a category with
no matching expenses is absent from the mapping rather than present with
zero. -/
theorem C7_category_totals (now : Int) (db : DB) (k c : String) :
    ((db.expenses.filter (monthMatch now k)).filter (fun e => e.category == c) = [] →
        (view_category_wise_summary now db k).lookup c = none) ∧
    ((db.expenses.filter (monthMatch now k)).filter (fun e => e.category == c) ≠ [] →
        (view_category_wise_summary now db k).lookup c =
          some ((((db.expenses.filter (monthMatch now k)).filter
            (fun e => e.category == c)).map (·.amount)).sum)) := by
  have hlk : (view_category_wise_summary now db k).lookup c =
      if c ∈ ((db.expenses.filter (monthMatch now k)).map (·.category)).dedup then
        some ((((db.expenses.filter (monthMatch now k)).filter
          (fun e => e.category == c)).map (·.amount)).foldl (· + ·) 0)
      else none :=
    lookup_map_self _ c _
  have hmem : c ∈ ((db.expenses.filter (monthMatch now k)).map (·.category)).dedup ↔
      (db.expenses.filter (monthMatch now k)).filter (fun e => e.category == c) ≠ [] := by
    rw [List.mem_dedup, List.mem_map]
    constructor
    · rintro ⟨e, he, rfl⟩ hnil
      rw [List.filter_eq_nil_iff] at hnil
      exact hnil e he (by simp)
    · intro hne
      cases hx : (db.expenses.filter (monthMatch now k)).filter (fun e => e.category == c) with
      | nil => exact absurd hx hne
      | cons x xs =>
          have hxmem : x ∈ (db.expenses.filter (monthMatch now k)).filter
              (fun e => e.category == c) := by
            rw [hx]
            exact List.mem_cons_self _ _
          have hx2 := List.mem_filter.mp hxmem
          exact ⟨x, hx2.1, by simpa using hx2.2⟩
  constructor
  · intro h0
    rw [hlk, if_neg]
    intro hc
    exact (hmem.mp hc) h0
  · intro hne
    rw [hlk, if_pos (hmem.mpr hne), foldl_add_eq_sum, zero_add]

/-- Witness for C7 at the specification's scenario: two Travel expenses and
one Food expense in 2025-12 yield a Travel entry summing both. -/
def scenarioDB : DB :=
  ⟨[⟨1, "2025-12-01", "Travel", 120, none⟩,
    ⟨2, "2025-12-02", "Food", 50, some "coffee"⟩,
    ⟨3, "2025-12-03", "Travel", 180, none⟩], 4, []⟩

theorem C7_category_totals_witness :
    (view_category_wise_summary 0 scenarioDB "2025-12").lookup "Travel" =
      some ((((scenarioDB.expenses.filter (monthMatch 0 "2025-12")).filter
        (fun e => e.category == "Travel")).map (·.amount)).sum) :=
  (C7_category_totals 0 scenarioDB "2025-12" "Travel").2 (by decide)

def IdInv (db : DB) : Prop :=
  List.Pairwise (· < ·) (db.expenses.map (·.id)) ∧ ∀ e ∈ db.expenses, e.id < db.nextId

theorem idInv_init : IdInv init_db := by
  constructor <;> simp [init_db]

theorem idInv_step {db db' : DB} (h : Step db db') (hi : IdInv db) : IdInv db' := by
  obtain ⟨hp, hb⟩ := hi
  cases h with
  | add d c a n =>
      constructor
      · show List.Pairwise (· < ·)
            ((db.expenses ++ [(⟨db.nextId, d, c, a, n⟩ : Expense)]).map (·.id))
        rw [List.map_append, List.pairwise_append]
        refine ⟨hp, by simp, ?_⟩
        intro x hx y hy
        simp only [List.mem_map] at hx
        obtain ⟨e, he, rfl⟩ := hx
        simp only [List.map_cons, List.map_nil, List.mem_singleton] at hy
        rw [hy]
        exact hb e he
      · intro e he
        show e.id < db.nextId + 1
        rcases List.mem_append.mp he with h1 | h1
        · exact Nat.lt_succ_of_lt (hb e h1)
        · simp only [List.mem_singleton] at h1
          rw [h1]
          exact Nat.lt_succ_self _
  | del i =>
      constructor
      · exact List.Pairwise.sublist (List.Sublist.map _ (List.filter_sublist _)) hp
      · intro e he
        exact hb e (List.mem_filter.mp he).1
  | setBudget k a => exact ⟨hp, hb⟩

theorem reachable_idInv {db : DB} (h : Reachable db) : IdInv db := by
  induction h with
  | refl => exact idInv_init
  | tail _ hstep ih => exact idInv_step hstep ih

theorem nextId_mono {db db' : DB} (h : Relation.ReflTransGen Step db db') :
    db.nextId ≤ db'.nextId := by
  induction h with
  | refl => exact Nat.le_refl _
  | tail _ hstep ih =>
      refine ih.trans ?_
      cases hstep with
      | add => exact Nat.le_succ _
      | del => exact Nat.le_refl _
      | setBudget => exact Nat.le_refl _

theorem old_ids_frozen {db db' : DB} (h : Relation.ReflTransGen Step db db') :
    ∀ e ∈ db'.expenses, e.id < db.nextId → e ∈ db.expenses := by
  induction h with
  | refl => exact fun e he _ => he
  | @tail b c hsteps hstep ih =>
      intro e he hid
      cases hstep with
      | add d cat a n =>
          rcases List.mem_append.mp he with h1 | h1
          · exact ih e h1 hid
          · exfalso
            simp only [List.mem_singleton] at h1
            have hmono : db.nextId ≤ b.nextId := nextId_mono hsteps
            have hlt : b.nextId < db.nextId := by
              rw [h1] at hid
              exact hid
            omega
      | del i => exact ih e (List.mem_filter.mp he).1 hid
      | setBudget k a => exact ih e he hid

/-- C8: in every reachable state the stored ids are strictly increasing in
insertion order (hence unique), and an id strictly below the current counter
that is not held by any stored record — in particular a deleted id — is never
held by any record in any later reachable state. -/
theorem C8_ids_unique_increasing_never_reused (db : DB) (hr : Reachable db) :
    List.Pairwise (· < ·) (db.expenses.map (·.id)) ∧
    (db.expenses.map (·.id)).Nodup ∧
    ∀ db', Relation.ReflTransGen Step db db' →
      ∀ i, i < db.nextId → (∀ e ∈ db.expenses, e.id ≠ i) →
        ∀ e' ∈ db'.expenses, e'.id ≠ i := by
  have hi := reachable_idInv hr
  refine ⟨hi.1, List.Pairwise.imp (fun h => Nat.ne_of_lt h) hi.1, ?_⟩
  intro db' hsteps i hlt hnone e' he' heq
  exact hnone e' (old_ids_frozen hsteps e' he' (by rw [heq]; exact hlt)) heq

/-- Witness for C8: starting from the fresh store, after one add the stored
record cannot carry the never-assigned id 0. -/
theorem C8_ids_unique_increasing_never_reused_witness :
    (⟨1, "2025-12-05", "Food", 150, some "lunch"⟩ : Expense).id ≠ 0 :=
  (C8_ids_unique_increasing_never_reused init_db Relation.ReflTransGen.refl).2.2
    (add_expense init_db "2025-12-05" "Food" 150 (some "lunch")).1
    (Relation.ReflTransGen.single (Step.add init_db "2025-12-05" "Food" 150 (some "lunch")))
    0 (by decide) (by intro e he; simp [init_db] at he)
    (⟨1, "2025-12-05", "Food", 150, some "lunch"⟩ : Expense)
    (by simp [add_expense, init_db])

/-- C10, amended: `add_expense` performs no validation of the date string and
stores every date verbatim; a record whose date does not parse as an SQLite
date-time value at the query's evaluation time is counted in no month's total
or category summary at that time; however some strings that are not
well-formed ISO dates do parse (the environment-dependent `now`, and see
`C10_nonISO_date_counted`), so "never counted" does not hold for all non-ISO
strings. -/
theorem C10_add_verbatim_unparseable_uncounted (now : Int) (db : DB) (d c : String)
    (a : ℚ) (n : Option String) (k : String) (h : strftimeYM now d = none) :
    (add_expense db d c a n).1.expenses =
      db.expenses ++ [⟨db.nextId, d, c, a, n⟩] ∧
    sum_expenses_for_month now (add_expense db d c a n).1 k =
      sum_expenses_for_month now db k ∧
    view_category_wise_summary now (add_expense db d c a n).1 k =
      view_category_wise_summary now db k := by
  have hm : monthMatch now k (⟨db.nextId, d, c, a, n⟩ : Expense) = false := by
    simp [monthMatch, h]
  have hfil : (add_expense db d c a n).1.expenses.filter (monthMatch now k) =
      db.expenses.filter (monthMatch now k) := by
    show (db.expenses ++ [(⟨db.nextId, d, c, a, n⟩ : Expense)]).filter (monthMatch now k) =
      db.expenses.filter (monthMatch now k)
    rw [List.filter_append]
    simp [hm]
  refine ⟨rfl, ?_, ?_⟩
  · simp only [sum_expenses_for_month, hfil]
  · simp only [view_category_wise_summary, hfil]

/-- Witness for C10: adding a record with the unparseable date
`"not a date"` leaves December's total unchanged. -/
theorem C10_add_verbatim_unparseable_uncounted_witness :
    sum_expenses_for_month 0 (add_expense init_db "not a date" "Food" 5 none).1 "2025-12" =
      sum_expenses_for_month 0 init_db "2025-12" :=
  (C10_add_verbatim_unparseable_uncounted 0 init_db "not a date" "Food" 5 none "2025-12"
    (by decide)).2.1

/-- A state holding one expense whose date is the bare time string `"12:30"`:
SQLite parses a bare time with the default date 2000-01-01, so the summary
queries count it under month `"2000-01"`. -/
def cxDB2 : DB := ⟨[⟨1, "12:30", "Food", 7, none⟩], 2, []⟩

/-- C10 as frozen is false in its second half: a record whose date is not a
well-formed ISO date can be counted in a monthly total (here `"12:30"` under
month key `"2000-01"`). -/
theorem C10_nonISO_date_counted :
    isWellFormedISODate "12:30" = false ∧
    sum_expenses_for_month 0 cxDB2 "2000-01" ≠ 0 := by
  refine ⟨by decide, ?_⟩
  have h7 : sum_expenses_for_month 0 cxDB2 "2000-01" = 7 := by
    have hm : monthMatch 0 "2000-01" (⟨1, "12:30", "Food", 7, none⟩ : Expense) = true := by
      decide
    simp [sum_expenses_for_month, cxDB2, hm, sqlSum]
  rw [h7]
  norm_num
